import Mathlib

/-!
# Verification of the attestation indexing and projection engine

Shallow embedding of the core of the `easter-indexer-v2` repository
(`src/unnamed/part_000`, the multi-schema variant the specification describes,
with `src/utils.ts` as the older single-schema variant where noted).

The read model (`User`, `Post`, `Like`, `Follow`, `ServiceStat` Prisma tables)
is modelled as lists of rows; Prisma operations become functions on this state:
`create` fails on a duplicate primary key, `update` fails when no row matches,
`updateMany` touches every matching row and never fails, `findUnique` /
`findFirst` are `List.find?`.  A JavaScript `try { ... } catch` block whose
handler only logs is modelled by `tryCatch`, which restores the pre-block state
on failure.  Fallible computations are `Except String`; a JavaScript exception
escaping a function is `Except.error`.

External collaborators are parameters: the EAS contract's `getAttestation`
point lookup is an oracle (attempt-indexed for the resolver's retry loop, since
the upstream is eventually consistent), ABI decoding (`defaultAbiCoder.decode`
plus `parseBytes32String`) are `String → Option String` parameters, and the
logs returned by `provider.getLogs` are passed in as a list.
-/

namespace EasterIndexer

/-- Schema UID for post creation (constant `makePostUID` in the source). -/
def makePostUID : String :=
  "0xbbea47804168571b26f0ea2962bfbd1b11184bc0a438724c890151201eb60128"

/-- Schema UID for likes (constant `likeUID` in the source). -/
def likeUID : String :=
  "0x33e9094830a5cba5554d1954310e4fbed2ef5f859ec1404619adea4207f391fd"

/-- Schema UID for usernames (constant `usernameUID` in the source). -/
def usernameUID : String :=
  "0x1c12bac4f230477c87449a101f5f9d6ca1c492866355c0a5e27026753e5ebf40"

/-- Schema UID for follows (constant `followUID` in the source). -/
def followUID : String :=
  "0x4915a98a3dc10c71027c01e59cb39415d4c04fdcdde539d6d04fc812af86d8dd"

/-- `ethers.constants.HashZero`, the zero-hash sentinel. -/
def HashZero : String :=
  "0x0000000000000000000000000000000000000000000000000000000000000000"

/-- `ethers.constants.AddressZero`. -/
def AddressZero : String := "0x0000000000000000000000000000000000000000"

/-- Event signature of the creation stream. -/
def attestedEventSignature : String := "Attested(address,address,bytes32,bytes32)"

/-- Event signature of the revocation stream. -/
def revokedEventSignature : String := "Revoked(address,address,bytes32,bytes32)"

/-- `ethers.utils.id` is the keccak hash of the event signature, used only as
an opaque topic tag compared for equality; it is modelled as an injective
tagging function. -/
def ethersId (s : String) : String := "0xkeccak" ++ s

/-- A raw log event (`ethers.providers.Log`): only the fields the indexer
reads are kept. -/
structure Log where
  address : String
  topics : List String
  data : String
  blockNumber : Nat
  transactionHash : String
  deriving Repr, DecidableEq

/-- The tuple returned by the EAS contract's `getAttestation` point lookup
(fields named as the on-chain struct names them: `uid`, `schema`, ...). -/
structure ChainAttestation where
  uid : String
  schema : String
  time : Nat
  expirationTime : Nat
  revocationTime : Nat
  refUID : String
  recipient : String
  attester : String
  revocable : Bool
  data : String
  deriving Repr, DecidableEq

/-- The Prisma `Attestation` record built by `getFormattedAttestationFromLog`. -/
structure Attestation where
  id : String
  schemaId : String
  data : String
  attester : String
  recipient : String
  refUID : String
  revocationTime : Nat
  expirationTime : Nat
  time : Nat
  txid : String
  revoked : Bool
  isOffchain : Bool
  ipfsHash : String
  timeCreated : Nat
  revocable : Bool
  deriving Repr, DecidableEq

/-- A row of the Prisma `User` table (the fields the indexer writes). -/
structure User where
  id : String
  name : String
  createdAt : Nat
  deriving Repr, DecidableEq

/-- A row of the Prisma `Post` table (the fields the indexer writes). -/
structure Post where
  id : String
  userId : String
  recipientId : String
  content : String
  parentId : Option String
  createdAt : Nat
  revokedAt : Nat
  deriving Repr, DecidableEq

/-- A row of the Prisma `Like` table. -/
structure Like where
  id : String
  postId : String
  userId : String
  createdAt : Nat
  revokedAt : Nat
  deriving Repr, DecidableEq

/-- A row of the Prisma `Follow` table. -/
structure Follow where
  id : String
  followerId : String
  followingId : String
  createdAt : Nat
  revokedAt : Nat
  deriving Repr, DecidableEq

/-- A row of the Prisma `ServiceStat` table (the checkpoint store); `value`
is stored as a string exactly as `lastBlock.toString()` writes it. -/
structure ServiceStat where
  name : String
  value : String
  deriving Repr, DecidableEq

/-- The read-model state: the tables the projection dispatcher and checkpoint
store write.  The `LinkPreview` table and the image files on disk are side
effects outside the claims' scope and are not part of the state. -/
structure DbState where
  users : List User
  posts : List Post
  likes : List Like
  follows : List Follow
  serviceStats : List ServiceStat
  deriving Repr, DecidableEq

/-- `prisma.user.create`: rejects on a duplicate primary key. -/
def userCreate (u : User) (s : DbState) : Except String DbState :=
  if s.users.any (fun x => x.id == u.id) then .error "unique constraint"
  else .ok { s with users := s.users ++ [u] }

/-- `prisma.post.create`: rejects on a duplicate primary key. -/
def postCreate (p : Post) (s : DbState) : Except String DbState :=
  if s.posts.any (fun x => x.id == p.id) then .error "unique constraint"
  else .ok { s with posts := s.posts ++ [p] }

/-- `prisma.like.create`: rejects on a duplicate primary key. -/
def likeCreate (l : Like) (s : DbState) : Except String DbState :=
  if s.likes.any (fun x => x.id == l.id) then .error "unique constraint"
  else .ok { s with likes := s.likes ++ [l] }

/-- `prisma.follow.create`: rejects on a duplicate primary key. -/
def followCreate (f : Follow) (s : DbState) : Except String DbState :=
  if s.follows.any (fun x => x.id == f.id) then .error "unique constraint"
  else .ok { s with follows := s.follows ++ [f] }

/-- `prisma.user.update where id`: rejects when no row matches. -/
def userUpdateName (i v : String) (s : DbState) : Except String DbState :=
  if (s.users.find? (fun u => u.id == i)).isSome then
    .ok { s with users := s.users.map (fun u => if u.id == i then { u with name := v } else u) }
  else .error "record not found"

/-- A `try { ... } catch (e) { console.log(...) }` block: on failure the
state is the one from before the block (the only state-mutating call inside
each such block in the source is the one that can fail, so failure leaves
the read model as it was at block entry). -/
def tryCatch (x : Except String DbState) (fallback : DbState) : DbState :=
  match x with
  | .ok s => s
  | .error _ => fallback

/-- The schema allowlist `schemasToProcess` in `processCreatedAttestation`. -/
def schemasToProcess : List String := [makePostUID, likeUID, followUID, usernameUID]

/-- The user auto-creation step of `processCreatedAttestation`: a
`findUnique` followed by `user.create` when the user is absent and the schema
is in the allowlist. -/
def ensureUser (i : String) (t : Nat) (schemaId : String) (s : DbState) :
    Except String DbState :=
  if (s.users.find? (fun u => u.id == i)) = none ∧ schemaId ∈ schemasToProcess then
    userCreate { id := i, name := "", createdAt := t } s
  else
    .ok s

/-- The parent-post resolution step of `processPostAttestation`: when
`refUID` is non-zero and a local post with that id exists, use its id;
otherwise `null`. -/
def resolveParentId (a : Attestation) (s : DbState) : Option String :=
  if a.refUID ≠ HashZero then
    match s.posts.find? (fun p => p.id == a.refUID) with
    | some parentPost => some parentPost.id
    | none => none
  else none

/-- The body of `processPostAttestation`'s `try` block that touches the
read model: ABI-decode the content, best-effort parent lookup via `refUID`,
then `post.create`.  The link-preview block after the create writes only the
`LinkPreview` table and files on disk and is wrapped in its own inner
`try/catch`; it does not touch this state. -/
def postBody (decodeString : String → Option String) (a : Attestation) (s : DbState) :
    Except String DbState :=
  match decodeString a.data with
  | none => .error "decode"
  | some content =>
    postCreate { id := a.id, userId := a.attester, recipientId := a.recipient,
                 content := content, parentId := resolveParentId a s,
                 createdAt := a.time, revokedAt := 0 } s

/-- `processPostAttestation`: the whole body is one `try/catch` whose handler
only logs, so a decode failure or duplicate post id leaves the state as it
was. -/
def processPostAttestation (decodeString : String → Option String) (a : Attestation)
    (s : DbState) : DbState :=
  tryCatch (postBody decodeString a s) s

/-- The like branch of `processCreatedAttestation`'s `try` block: look up the
target post by `refUID`; when present, `like.create`; when absent, nothing. -/
def likeBody (a : Attestation) (s : DbState) : Except String DbState :=
  match s.posts.find? (fun p => p.id == a.refUID) with
  | some _ =>
      likeCreate { id := a.id, postId := a.refUID, userId := a.attester,
                   createdAt := a.time, revokedAt := 0 } s
  | none => .ok s

/-- The username branch of `processCreatedAttestation`'s `try` block:
decode a bytes32 name (`defaultAbiCoder.decode` + `parseBytes32String`,
modelled as one partial decoder) and update the attester's `name`. -/
def usernameBody (decodeBytes32Name : String → Option String) (a : Attestation)
    (s : DbState) : Except String DbState :=
  match decodeBytes32Name a.data with
  | none => .error "decode"
  | some v => userUpdateName a.attester v s

/-- The follow branch of `processCreatedAttestation`'s `try` block. -/
def followBody (a : Attestation) (s : DbState) : Except String DbState :=
  followCreate { id := a.id, followerId := a.attester, followingId := a.recipient,
                 createdAt := a.time, revokedAt := 0 } s

/-- The schema dispatch chain of `processCreatedAttestation` (everything after
the two user auto-creation steps); each branch is a `try/catch` whose handler
only logs. -/
def dispatchBranch (decodeString decodeBytes32Name : String → Option String)
    (a : Attestation) (s : DbState) : DbState :=
  if a.schemaId = likeUID then
    tryCatch (likeBody a s) s
  else if a.schemaId = makePostUID then
    processPostAttestation decodeString a s
  else if a.schemaId = usernameUID then
    tryCatch (usernameBody decodeBytes32Name a s) s
  else if a.schemaId = followUID then
    tryCatch (followBody a s) s
  else
    s

/-- `processCreatedAttestation`: auto-create attester and recipient users
(these two `user.create` calls are the only ones not under a `try/catch`, so
their failure would escape to the caller), then dispatch on the schema id. -/
def processCreatedAttestation (decodeString decodeBytes32Name : String → Option String)
    (a : Attestation) (s : DbState) : Except String DbState :=
  match ensureUser a.attester a.time a.schemaId s with
  | .error e => .error e
  | .ok s1 =>
    match ensureUser a.recipient a.time a.schemaId s1 with
    | .error e => .error e
    | .ok s2 => .ok (dispatchBranch decodeString decodeBytes32Name a s2)

/-- The resolver's retry loop in `getFormattedAttestationFromLog`: a
`do { ... } while (UID === HashZero)` that re-queries `getAttestation` until
the returned UID is non-zero.  The upstream is eventually consistent, so the
oracle `chainAt` is indexed by the attempt number; the source has no attempt
cap, so the loop is given explicit fuel to make it a Lean function: `none`
means the loop is still running after `fuel` attempts. -/
def retryGetAttestation (chainAt : Nat → ChainAttestation) :
    Nat → Nat → Option ChainAttestation
  | 0, _ => none
  | fuel + 1, k =>
    if (chainAt k).uid = HashZero then retryGetAttestation chainAt fuel (k + 1)
    else some (chainAt k)

/-- `getFormattedAttestationFromLog`: run the retry loop, then package the
tuple into the Prisma `Attestation` record; `now` is `dayjs().unix()`. -/
def getFormattedAttestationFromLog (chainAt : Nat → ChainAttestation) (now : Nat)
    (log : Log) (fuel : Nat) : Option Attestation :=
  match retryGetAttestation chainAt fuel 0 with
  | none => none
  | some a =>
    some { id := a.uid, schemaId := a.schema, data := a.data,
           attester := a.attester, recipient := a.recipient, refUID := a.refUID,
           revocationTime := a.revocationTime, expirationTime := a.expirationTime,
           time := a.time, txid := log.transactionHash,
           revoked := decide (a.revocationTime < now) && !(a.revocationTime == 0),
           isOffchain := false, ipfsHash := "", timeCreated := now,
           revocable := a.revocable }

/-- `prisma.post.updateMany where id`: update every matching row (possibly
none); never fails. -/
def postUpdateManyRevokedAt (i : String) (t : Nat) (s : DbState) : DbState :=
  { s with posts := s.posts.map (fun p => if p.id == i then { p with revokedAt := t } else p) }

/-- `prisma.like.updateMany where id`. -/
def likeUpdateManyRevokedAt (i : String) (t : Nat) (s : DbState) : DbState :=
  { s with likes := s.likes.map (fun l => if l.id == i then { l with revokedAt := t } else l) }

/-- `prisma.follow.updateMany where id`. -/
def followUpdateManyRevokedAt (i : String) (t : Nat) (s : DbState) : DbState :=
  { s with follows := s.follows.map (fun f => if f.id == i then { f with revokedAt := t } else f) }

/-- One iteration of `revokeAttestationsFromLogs` (part_000): fetch the
attestation for the log's data via the contract oracle `chain`, then route
the `revokedAt` update to Post, Like or Follow by the attestation's schema;
unknown schemas fall through and nothing happens. -/
def revokeOne (chain : String → ChainAttestation) (log : Log) (s : DbState) : DbState :=
  if (chain log.data).schema = makePostUID then
    postUpdateManyRevokedAt (chain log.data).uid (chain log.data).revocationTime s
  else if (chain log.data).schema = likeUID then
    likeUpdateManyRevokedAt (chain log.data).uid (chain log.data).revocationTime s
  else if (chain log.data).schema = followUID then
    followUpdateManyRevokedAt (chain log.data).uid (chain log.data).revocationTime s
  else s

/-- `revokeAttestationsFromLogs` (part_000): the for-loop over the logs. -/
def revokeAttestationsFromLogs (chain : String → ChainAttestation)
    (logs : List Log) (s : DbState) : DbState :=
  logs.foldl (fun s l => revokeOne chain l s) s

/-- The sequential application for-loop of `parseAttestationLogs`: apply
`processCreatedAttestation` to each resolved attestation in array order. -/
def applyAttestations (decodeString decodeBytes32Name : String → Option String) :
    List Attestation → DbState → Except String DbState
  | [], s => .ok s
  | a :: rest, s =>
    match processCreatedAttestation decodeString decodeBytes32Name a s with
    | .error e => .error e
    | .ok s' => applyAttestations decodeString decodeBytes32Name rest s'

/-- `parseAttestationLogs`: resolve every log (the bounded-parallel
`Promise.all` preserves array order and reads no database state, so it is the
order-preserving `List.map` of the external resolution `resolve`), then apply
the projections sequentially in array order. -/
def parseAttestationLogs (resolve : Log → Attestation)
    (decodeString decodeBytes32Name : String → Option String)
    (logs : List Log) (s : DbState) : Except String DbState :=
  applyAttestations decodeString decodeBytes32Name (logs.map resolve) s

/-- `prisma.serviceStat.findFirst where name`. -/
def serviceStatFind (n : String) (s : DbState) : Option ServiceStat :=
  s.serviceStats.find? (fun r => r.name == n)

/-- `prisma.serviceStat.create`: rejects on a duplicate primary key. -/
def serviceStatCreate (n v : String) (s : DbState) : Except String DbState :=
  if s.serviceStats.any (fun r => r.name == n) then .error "unique constraint"
  else .ok { s with serviceStats := s.serviceStats ++ [{ name := n, value := v }] }

/-- `prisma.serviceStat.update where name`: rejects when no row matches. -/
def serviceStatUpdate (n v : String) (s : DbState) : Except String DbState :=
  if (s.serviceStats.find? (fun r => r.name == n)).isSome then
    .ok { s with serviceStats :=
      s.serviceStats.map (fun r => if r.name == n then { r with value := v } else r) }
  else .error "record not found"

/-- `updateServiceStatToLastBlock`: create the checkpoint row when
`shouldCreate`, otherwise overwrite it with `lastBlock.toString()` unless
`lastBlock` is zero.  Note there is no comparison with the stored value. -/
def updateServiceStatToLastBlock (shouldCreate : Bool) (serviceStatPropertyName : String)
    (lastBlock : Nat) (s : DbState) : Except String DbState :=
  if shouldCreate then
    serviceStatCreate serviceStatPropertyName (toString lastBlock) s
  else
    if lastBlock ≠ 0 then
      serviceStatUpdate serviceStatPropertyName (toString lastBlock) s
    else
      .ok s

/-- `Number(...)` on the decimal strings this service writes as checkpoint
values (the round trip with `toString` is the identity on naturals); decimal
parsing is written over the string's characters. -/
def jsNumber (v : String) : Nat :=
  v.data.foldl (fun acc c => acc * 10 + (c.toNat - 48)) 0

/-- `getStartData`: read the checkpoint row and compute the poll start block,
defaulting to the contract deployment block when the row is absent, its value
is the empty string, or it parses to zero. -/
def getStartData (contractStartBlock : Nat) (serviceStatPropertyName : String)
    (s : DbState) : Option ServiceStat × Nat :=
  let latestBlockNumServiceStat := serviceStatFind serviceStatPropertyName s
  let fromBlock :=
    match latestBlockNumServiceStat with
    | some st => if st.value ≠ "" then jsNumber st.value else contractStartBlock
    | none => contractStartBlock
  (latestBlockNumServiceStat, if fromBlock = 0 then contractStartBlock else fromBlock)

/-- `getLastBlockNumberFromLog`: block number of the last log, or 0 for an
empty batch. -/
def getLastBlockNumberFromLog (logs : List Log) : Nat :=
  match logs.getLast? with
  | some l => l.blockNumber
  | none => 0

/-- `getAndUpdateLatestAttestations` (one poll cycle of the creation stream):
read the checkpoint, process the fetched batch (`logs`, the result of the
external `provider.getLogs` range query), then advance the checkpoint to the
batch's last block — creating the row when `getStartData` found none. -/
def getAndUpdateLatestAttestations (contractStartBlock : Nat)
    (resolve : Log → Attestation) (decodeString decodeBytes32Name : String → Option String)
    (logs : List Log) (s : DbState) : Except String DbState :=
  let latestBlockNumServiceStat :=
    (getStartData contractStartBlock "latestAttestationBlockNum" s).1
  match parseAttestationLogs resolve decodeString decodeBytes32Name logs s with
  | .error e => .error e
  | .ok s' =>
    updateServiceStatToLastBlock latestBlockNumServiceStat.isNone
      "latestAttestationBlockNum" (getLastBlockNumberFromLog logs) s'

/-- `getAndUpdateLatestAttestationRevocations` (one poll cycle of the
revocation stream). -/
def getAndUpdateLatestAttestationRevocations (contractStartBlock : Nat)
    (chain : String → ChainAttestation) (logs : List Log) (s : DbState) :
    Except String DbState :=
  let latestBlockNumServiceStat :=
    (getStartData contractStartBlock "latestAttestationRevocationBlockNum" s).1
  let s' := revokeAttestationsFromLogs chain logs s
  updateServiceStatToLastBlock latestBlockNumServiceStat.isNone
    "latestAttestationRevocationBlockNum" (getLastBlockNumberFromLog logs) s'

/-- `log.topics[3]` membership test: JavaScript indexing past the end yields
`undefined`, and `[...].includes(undefined)` is false. -/
def topic3Matches (log : Log) (schemas : List String) : Bool :=
  match log.topics.get? 3 with
  | some t => schemas.contains t
  | none => false

/-- `updateDbFromRelevantLog` (part_000), the live-tail handler: route a
single delivered event through the same dispatch path as the poller
(single-element batch), then overwrite the corresponding checkpoint with the
event's block number via `updateServiceStatToLastBlock false`; the contract
address `easAddress` is the configured `EASContractAddress`. -/
def updateDbFromRelevantLog (easAddress : String) (resolve : Log → Attestation)
    (chain : String → ChainAttestation)
    (decodeString decodeBytes32Name : String → Option String)
    (log : Log) (s : DbState) : Except String DbState :=
  if log.address = easAddress then
    if log.topics.get? 0 = some (ethersId attestedEventSignature) ∧
        topic3Matches log [makePostUID, likeUID, usernameUID, followUID] = true then
      match parseAttestationLogs resolve decodeString decodeBytes32Name [log] s with
      | .error e => .error e
      | .ok s' =>
        updateServiceStatToLastBlock false "latestAttestationBlockNum" log.blockNumber s'
    else if log.topics.get? 0 = some (ethersId revokedEventSignature) ∧
        topic3Matches log [makePostUID, likeUID, followUID] = true then
      updateServiceStatToLastBlock false "latestAttestationRevocationBlockNum"
        log.blockNumber (revokeAttestationsFromLogs chain [log] s)
    else .ok s
  else .ok s

/-- `url.includes("@")`: a substring test for the one-character needle `@`,
written over the string's characters. -/
def includesAtSign (u : String) : Bool := u.data.any (fun c => c == '@')

/-- `extractURLs`: `text.match(urlRegex)` is the external JavaScript regex
engine, passed in as `jsMatch` (`none` models a `null` match result); the
matches are prefixed with `https://` and those containing `@` are
filtered out. -/
def extractURLs (jsMatch : String → Option (List String)) (text : String) :
    List String :=
  match (jsMatch text).map (fun ms =>
      (ms.map (fun url => "https://" ++ url)).filter (fun url => !includesAtSign url)) with
  | some urls => urls
  | none => []

/-- A post row with id `i` exists. -/
def hasPost (s : DbState) (i : String) : Prop := ∃ p ∈ s.posts, p.id = i

/-- A user row with id `i` exists. -/
def hasUser (s : DbState) (i : String) : Prop := ∃ u ∈ s.users, u.id = i

/-- A like row with id `i` exists. -/
def hasLike (s : DbState) (i : String) : Prop := ∃ l ∈ s.likes, l.id = i

/-- A follow row with id `i` exists. -/
def hasFollow (s : DbState) (i : String) : Prop := ∃ f ∈ s.follows, f.id = i

instance (s : DbState) (i : String) : Decidable (hasPost s i) :=
  inferInstanceAs (Decidable (∃ p ∈ s.posts, p.id = i))

instance (s : DbState) (i : String) : Decidable (hasUser s i) :=
  inferInstanceAs (Decidable (∃ u ∈ s.users, u.id = i))

instance (s : DbState) (i : String) : Decidable (hasLike s i) :=
  inferInstanceAs (Decidable (∃ l ∈ s.likes, l.id = i))

instance (s : DbState) (i : String) : Decidable (hasFollow s i) :=
  inferInstanceAs (Decidable (∃ f ∈ s.follows, f.id = i))

/-- Pure result of `ensureUser`. -/
def ensureUserF (i : String) (t : Nat) (schemaId : String) (s : DbState) : DbState :=
  if (s.users.find? (fun u => u.id == i)) = none ∧ schemaId ∈ schemasToProcess then
    { s with users := s.users ++ [{ id := i, name := "", createdAt := t }] }
  else s

/-- The two user auto-creation steps as one pure function. -/
def userPhase (a : Attestation) (s : DbState) : DbState :=
  ensureUserF a.recipient a.time a.schemaId (ensureUserF a.attester a.time a.schemaId s)

/-- Pure result of `processCreatedAttestation`. -/
def processF (decodeString decodeBytes32Name : String → Option String)
    (a : Attestation) (s : DbState) : DbState :=
  dispatchBranch decodeString decodeBytes32Name a (userPhase a s)

/-- Content decoder used only in witness instantiations. -/
def decode0 : String → Option String := fun d => some d

/-- Name decoder used only in witness instantiations. -/
def decodeName0 : String → Option String := fun _ => none

/-- A concrete like attestation used in witnesses. -/
def att0 : Attestation :=
  { id := "0xaaa1", schemaId := likeUID, data := "0xdata", attester := "0xalice",
    recipient := "0xbob", refUID := HashZero, revocationTime := 0, expirationTime := 0,
    time := 7, txid := "0xtx", revoked := false, isOffchain := false, ipfsHash := "",
    timeCreated := 7, revocable := true }

/-- The empty read model. -/
def db0 : DbState := { users := [], posts := [], likes := [], follows := [], serviceStats := [] }

/-- The read model after projecting `att0` into `db0`. -/
def db1 : DbState :=
  { users := [{ id := "0xalice", name := "", createdAt := 7 },
              { id := "0xbob", name := "", createdAt := 7 }],
    posts := [], likes := [], follows := [], serviceStats := [] }

/-- An upstream `getAttestation` that never materializes the attestation:
every attempt returns the zero UID. -/
def zeroChainAt : Nat → ChainAttestation :=
  fun _ => { uid := HashZero, schema := HashZero, time := 0, expirationTime := 0,
             revocationTime := 0, refUID := HashZero, recipient := AddressZero,
             attester := AddressZero, revocable := false, data := "" }

/-- A concrete upstream answer with a non-zero UID, used in witnesses. -/
def chainAtt1 : ChainAttestation :=
  { uid := "0x01", schema := likeUID, time := 5, expirationTime := 0,
    revocationTime := 0, refUID := HashZero, recipient := "0xbob",
    attester := "0xalice", revocable := true, data := "0xd" }

/-- A concrete log used in resolver theorems. -/
def log1 : Log :=
  { address := "0xeas", topics := [], data := "0xlogdata", blockNumber := 3,
    transactionHash := "0xtx1" }

/-- The attestation record resolved from `log1` against `chainAtt1` at time 9. -/
def att1 : Attestation :=
  { id := "0x01", schemaId := likeUID, data := "0xd", attester := "0xalice",
    recipient := "0xbob", refUID := HashZero, revocationTime := 0,
    expirationTime := 0, time := 5, txid := "0xtx1", revoked := false,
    isOffchain := false, ipfsHash := "", timeCreated := 9, revocable := true }

/-- A concrete revocation log used in the C3 witness. -/
def log3 : Log :=
  { address := "0xeas", topics := [], data := "0xrev3", blockNumber := 12,
    transactionHash := "0xtx3" }

/-- The chain oracle used in the C3 witness: a like-schema attestation revoked
at time 44. -/
def chain3 : String → ChainAttestation :=
  fun _ => { uid := "0xlike1", schema := likeUID, time := 1, expirationTime := 0,
             revocationTime := 44, refUID := HashZero, recipient := "0xb",
             attester := "0xa", revocable := true, data := "" }

/-- A read model holding the like row targeted by `chain3`. -/
def s3 : DbState :=
  { users := [], posts := [],
    likes := [{ id := "0xlike1", postId := "0xp", userId := "0xa",
                createdAt := 1, revokedAt := 0 }],
    follows := [], serviceStats := [] }

/-- A fixed resolution used in concrete instantiations. -/
def resolve0 : Log → Attestation := fun _ => att0

/-- A read model whose creation-stream checkpoint is at block 100. -/
def s4 : DbState :=
  { users := [], posts := [], likes := [], follows := [],
    serviceStats := [{ name := "latestAttestationBlockNum", value := "100" }] }

/-- The configured EAS contract address used in concrete live-tail inputs. -/
def easAddr0 : String := "0xC2679fBD37d54388Ce493F1DB75320D236e1815e"

/-- An attestation of a schema outside the known set: its projection is a
no-op. -/
def attUnknown : Attestation :=
  { id := "0xother", schemaId := "0xdead", data := "", attester := "0xa",
    recipient := "0xb", refUID := HashZero, revocationTime := 0,
    expirationTime := 0, time := 1, txid := "0xtx", revoked := false,
    isOffchain := false, ipfsHash := "", timeCreated := 1, revocable := true }

/-- Resolution used in the C2 instantiations. -/
def resolve2 : Log → Attestation := fun _ => attUnknown

/-- A live-tail creation event at block 50. -/
def log2 : Log :=
  { address := easAddr0,
    topics := [ethersId attestedEventSignature, "0xt1", "0xt2", makePostUID],
    data := "0xd2", blockNumber := 50, transactionHash := "0xtx2" }

/-- A read model whose creation-stream checkpoint is already at block 100. -/
def s2 : DbState :=
  { users := [], posts := [], likes := [], follows := [],
    serviceStats := [{ name := "latestAttestationBlockNum", value := "100" }] }

/-- A concrete post attestation used in the C7 witness. -/
def attP : Attestation :=
  { id := "0xpost1", schemaId := makePostUID, data := "hello", attester := "0xalice",
    recipient := "0xbob", refUID := HashZero, revocationTime := 0, expirationTime := 0,
    time := 2, txid := "0xtp", revoked := false, isOffchain := false, ipfsHash := "",
    timeCreated := 2, revocable := true }

/-- A concrete like attestation referencing `attP`, used in the C7 witness. -/
def attL : Attestation :=
  { id := "0xlike1", schemaId := likeUID, data := "", attester := "0xcarol",
    recipient := "0xalice", refUID := "0xpost1", revocationTime := 0,
    expirationTime := 0, time := 3, txid := "0xtl", revoked := false,
    isOffchain := false, ipfsHash := "", timeCreated := 3, revocable := true }

/-- The log carrying `attP`. -/
def logP : Log :=
  { address := "0xeas", topics := [], data := "P", blockNumber := 1,
    transactionHash := "0xtp" }

/-- The log carrying `attL`. -/
def logL : Log :=
  { address := "0xeas", topics := [], data := "L", blockNumber := 2,
    transactionHash := "0xtl" }

/-- Resolution used in the C7 witness. -/
def resolve7 : Log → Attestation := fun log => if log.data = "P" then attP else attL

/-- The read model after projecting `attP` then `attL` into `db0`. -/
def db7 : DbState :=
  { users := [{ id := "0xalice", name := "", createdAt := 2 },
              { id := "0xbob", name := "", createdAt := 2 },
              { id := "0xcarol", name := "", createdAt := 3 }],
    posts := [{ id := "0xpost1", userId := "0xalice", recipientId := "0xbob",
                content := "hello", parentId := none, createdAt := 2, revokedAt := 0 }],
    likes := [{ id := "0xlike1", postId := "0xpost1", userId := "0xcarol",
                createdAt := 3, revokedAt := 0 }],
    follows := [], serviceStats := [] }

/-- A post attestation with a dangling non-zero `refUID`, used in the C8
witness. -/
def attP8 : Attestation :=
  { id := "0xpost8", schemaId := makePostUID, data := "x", attester := "0xa8",
    recipient := "0xb8", refUID := "0xmissing", revocationTime := 0,
    expirationTime := 0, time := 4, txid := "0xt8", revoked := false,
    isOffchain := false, ipfsHash := "", timeCreated := 4, revocable := true }

/-- A live-tail revocation event at block 60, used in the C2 witness. -/
def logR2 : Log :=
  { address := easAddr0,
    topics := [ethersId revokedEventSignature, "0xt1", "0xt2", likeUID],
    data := "0xdr", blockNumber := 60, transactionHash := "0xtxr" }

/-- A read model whose revocation-stream checkpoint is already at block 200. -/
def sR2 : DbState :=
  { users := [], posts := [], likes := [], follows := [],
    serviceStats := [{ name := "latestAttestationRevocationBlockNum", value := "200" }] }

/-! ### Theorems -/

theorem ensureUser_eq (i : String) (t : Nat) (schemaId : String) (s : DbState) :
    ensureUser i t schemaId s = .ok (ensureUserF i t schemaId s) := by
  unfold ensureUser ensureUserF
  split
  · rename_i h
    have hany : s.users.any (fun x => x.id == i) = false := by
      rw [List.any_eq_false]
      intro u hu
      exact List.find?_eq_none.mp h.1 u hu
    simp [userCreate, hany]
  · rfl

theorem processCreatedAttestation_eq (d p : String → Option String) (a : Attestation)
    (s : DbState) :
    processCreatedAttestation d p a s = .ok (processF d p a s) := by
  simp [processCreatedAttestation, processF, userPhase, ensureUser_eq]

theorem hasUser_iff_find? (s : DbState) (i : String) :
    hasUser s i ↔ ((s.users.find? (fun u => u.id == i)).isSome = true) := by
  rw [List.find?_isSome]
  unfold hasUser
  simp

theorem ensureUserF_hasUser_self (i : String) (t : Nat) (sch : String) (s : DbState)
    (h : sch ∈ schemasToProcess) : hasUser (ensureUserF i t sch s) i := by
  unfold ensureUserF
  split
  · exact ⟨{ id := i, name := "", createdAt := t }, by simp, rfl⟩
  · rename_i hcond
    rw [not_and_or] at hcond
    rcases hcond with hfind | hsch
    · rw [hasUser_iff_find?, Option.isSome_iff_ne_none]
      simpa using hfind
    · exact absurd h hsch

theorem ensureUserF_hasUser_mono (i : String) (t : Nat) (sch : String) (s : DbState)
    (j : String) (h : hasUser s j) : hasUser (ensureUserF i t sch s) j := by
  unfold ensureUserF
  split
  · obtain ⟨u, hu, hid⟩ := h
    exact ⟨u, by simp [hu], hid⟩
  · exact h

theorem ensureUserF_noop (i : String) (t : Nat) (sch : String) (s : DbState)
    (h : hasUser s i ∨ sch ∉ schemasToProcess) : ensureUserF i t sch s = s := by
  unfold ensureUserF
  rw [if_neg]
  rintro ⟨hfind, hsch⟩
  rcases h with h | h
  · rw [hasUser_iff_find?, hfind] at h
    simp at h
  · exact h hsch

theorem hasUser_of_users_eq (s s' : DbState) (j : String) (h : s'.users = s.users)
    (hj : hasUser s j) : hasUser s' j := by
  unfold hasUser at *
  rw [h]
  exact hj

theorem users_tryCatch_likeBody (a : Attestation) (s : DbState) :
    (tryCatch (likeBody a s) s).users = s.users := by
  unfold likeBody likeCreate
  split
  · split <;> rfl
  · rfl

theorem users_processPostAttestation (d : String → Option String) (a : Attestation)
    (s : DbState) : (processPostAttestation d a s).users = s.users := by
  unfold processPostAttestation postBody postCreate
  split
  · rfl
  · split <;> rfl

theorem posts_tryCatch_usernameBody (p : String → Option String) (a : Attestation)
    (s : DbState) : (tryCatch (usernameBody p a s) s).posts = s.posts := by
  unfold usernameBody userUpdateName
  split
  · rfl
  · split <;> rfl

theorem users_tryCatch_followBody (a : Attestation) (s : DbState) :
    (tryCatch (followBody a s) s).users = s.users := by
  unfold followBody followCreate
  split <;> rfl

theorem hasUser_tryCatch_usernameBody (p : String → Option String) (a : Attestation)
    (s : DbState) (j : String) (h : hasUser s j) :
    hasUser (tryCatch (usernameBody p a s) s) j := by
  unfold usernameBody userUpdateName
  split
  · exact h
  · rename_i x v hv
    split
    · show hasUser { s with
        users := s.users.map (fun u => if u.id == a.attester then { u with name := v } else u) } j
      obtain ⟨u, hu, hid⟩ := h
      refine ⟨if u.id == a.attester then { u with name := v } else u,
        List.mem_map_of_mem _ hu, ?_⟩
      split <;> simpa using hid
    · exact h

theorem hasUser_dispatchBranch (d p : String → Option String) (a : Attestation)
    (s : DbState) (j : String) (h : hasUser s j) :
    hasUser (dispatchBranch d p a s) j := by
  unfold dispatchBranch
  split
  · exact hasUser_of_users_eq _ _ _ (users_tryCatch_likeBody a s) h
  · split
    · exact hasUser_of_users_eq _ _ _ (users_processPostAttestation d a s) h
    · split
      · exact hasUser_tryCatch_usernameBody p a s j h
      · split
        · exact hasUser_of_users_eq _ _ _ (users_tryCatch_followBody a s) h
        · exact h

theorem userPhase_hasUser (a : Attestation) (s : DbState)
    (h : a.schemaId ∈ schemasToProcess) :
    hasUser (userPhase a s) a.attester ∧ hasUser (userPhase a s) a.recipient := by
  unfold userPhase
  constructor
  · exact ensureUserF_hasUser_mono _ _ _ _ _ (ensureUserF_hasUser_self _ _ _ _ h)
  · exact ensureUserF_hasUser_self _ _ _ _ h

theorem userPhase_noop (a : Attestation) (s : DbState)
    (h : a.schemaId ∈ schemasToProcess → hasUser s a.attester ∧ hasUser s a.recipient) :
    userPhase a s = s := by
  unfold userPhase
  by_cases hs : a.schemaId ∈ schemasToProcess
  · rw [ensureUserF_noop _ _ _ _ (Or.inl (h hs).1),
      ensureUserF_noop _ _ _ _ (Or.inl (h hs).2)]
  · rw [ensureUserF_noop _ _ _ _ (Or.inr hs), ensureUserF_noop _ _ _ _ (Or.inr hs)]

theorem like_branch_idem (a : Attestation) (s : DbState) :
    tryCatch (likeBody a (tryCatch (likeBody a s) s)) (tryCatch (likeBody a s) s)
      = tryCatch (likeBody a s) s := by
  rcases hf : s.posts.find? (fun p => p.id == a.refUID) with _ | q
  · have h1 : tryCatch (likeBody a s) s = s := by
      simp [likeBody, hf, tryCatch]
    rw [h1]
    exact h1
  · by_cases hany : (s.likes.any fun x => x.id == a.id) = true
    · have h1 : tryCatch (likeBody a s) s = s := by
        simp [likeBody, hf, likeCreate, hany, tryCatch]
      rw [h1]
      exact h1
    · have h1 : tryCatch (likeBody a s) s =
          { s with
            likes := s.likes ++
              [{ id := a.id, postId := a.refUID, userId := a.attester,
                 createdAt := a.time, revokedAt := 0 }] } := by
        simp [likeBody, hf, likeCreate, hany, tryCatch]
      rw [h1]
      simp [likeBody, likeCreate, tryCatch, hf]

theorem post_branch_idem (d : String → Option String) (a : Attestation) (s : DbState) :
    processPostAttestation d a (processPostAttestation d a s)
      = processPostAttestation d a s := by
  rcases hd : d a.data with _ | c
  · have h1 : processPostAttestation d a s = s := by
      simp [processPostAttestation, postBody, hd, tryCatch]
    rw [h1]
    exact h1
  · by_cases hany : (s.posts.any fun x => x.id == a.id) = true
    · have h1 : processPostAttestation d a s = s := by
        simp [processPostAttestation, postBody, hd, postCreate, hany, tryCatch]
      rw [h1]
      exact h1
    · have h1 : processPostAttestation d a s =
          { s with
            posts := s.posts ++
              [{ id := a.id, userId := a.attester, recipientId := a.recipient,
                 content := c, parentId := resolveParentId a s,
                 createdAt := a.time, revokedAt := 0 }] } := by
        simp [processPostAttestation, postBody, hd, postCreate, hany, tryCatch]
      rw [h1]
      simp [processPostAttestation, postBody, hd, postCreate, tryCatch]

theorem username_branch_idem (p : String → Option String) (a : Attestation) (s : DbState) :
    tryCatch (usernameBody p a (tryCatch (usernameBody p a s) s))
      (tryCatch (usernameBody p a s) s) = tryCatch (usernameBody p a s) s := by
  rcases hd : p a.data with _ | v
  · have h1 : tryCatch (usernameBody p a s) s = s := by
      simp [usernameBody, hd, tryCatch]
    rw [h1]
    exact h1
  · by_cases hfind : ((s.users.find? fun u => u.id == a.attester)).isSome = true
    · have h1 : tryCatch (usernameBody p a s) s =
          { s with
            users := s.users.map
              (fun u => if u.id == a.attester then { u with name := v } else u) } := by
        simp [usernameBody, hd, userUpdateName, hfind, tryCatch]
      rw [h1]
      set f : User → User := fun u => if u.id == a.attester then { u with name := v } else u
        with hfdef
      have hid : ∀ u : User, (f u).id = u.id := by
        intro u
        rw [hfdef]
        dsimp only
        split <;> rfl
      have hfind' : ((List.map f s.users).find? fun u => u.id == a.attester).isSome = true := by
        rw [List.find?_isSome] at hfind ⊢
        obtain ⟨u, hu, hbeq⟩ := hfind
        refine ⟨f u, List.mem_map_of_mem f hu, ?_⟩
        rw [show (f u).id = u.id from hid u]
        exact hbeq
      have hff : f ∘ f = f := by
        funext u
        show f (f u) = f u
        by_cases hc : (u.id == a.attester) = true
        · have h2 : f u = { id := u.id, name := v, createdAt := u.createdAt } := by
            rw [hfdef]
            dsimp only
            rw [if_pos hc]
          rw [h2, hfdef]
          dsimp only
          rw [if_pos hc]
        · have h2 : f u = u := by
            rw [hfdef]
            dsimp only
            rw [if_neg hc]
          rw [h2, h2]
      show tryCatch (usernameBody p a { s with users := List.map f s.users })
        { s with users := List.map f s.users } = { s with users := List.map f s.users }
      simp only [usernameBody, hd, userUpdateName]
      rw [if_pos]
      · simp [tryCatch, List.map_map, hff]
        intro u hu hua
        have h3 : u.id = a.attester := by
          rw [← hid u]
          exact hua
        have h4 : f u = { id := u.id, name := v, createdAt := u.createdAt } := by
          rw [hfdef]
          dsimp only
          rw [if_pos (by rw [beq_iff_eq]; exact h3)]
        rw [h4]
      · exact hfind'
    · have h1 : tryCatch (usernameBody p a s) s = s := by
        simp [usernameBody, hd, userUpdateName, hfind, tryCatch]
      rw [h1]
      exact h1

theorem follow_branch_idem (a : Attestation) (s : DbState) :
    tryCatch (followBody a (tryCatch (followBody a s) s)) (tryCatch (followBody a s) s)
      = tryCatch (followBody a s) s := by
  by_cases hany : (s.follows.any fun x => x.id == a.id) = true
  · have h1 : tryCatch (followBody a s) s = s := by
      simp [followBody, followCreate, hany, tryCatch]
    rw [h1]
    exact h1
  · have h1 : tryCatch (followBody a s) s =
        { s with
          follows := s.follows ++
            [{ id := a.id, followerId := a.attester, followingId := a.recipient,
               createdAt := a.time, revokedAt := 0 }] } := by
      simp [followBody, followCreate, hany, tryCatch]
    rw [h1]
    simp [followBody, followCreate, tryCatch]

theorem dispatchBranch_idem (d p : String → Option String) (a : Attestation) (s : DbState) :
    dispatchBranch d p a (dispatchBranch d p a s) = dispatchBranch d p a s := by
  unfold dispatchBranch
  by_cases h1 : a.schemaId = likeUID
  · simp only [if_pos h1]
    exact like_branch_idem a s
  · by_cases h2 : a.schemaId = makePostUID
    · simp only [if_neg h1, if_pos h2]
      exact post_branch_idem d a s
    · by_cases h3 : a.schemaId = usernameUID
      · simp only [if_neg h1, if_neg h2, if_pos h3]
        exact username_branch_idem p a s
      · by_cases h4 : a.schemaId = followUID
        · simp only [if_neg h1, if_neg h2, if_neg h3, if_pos h4]
          exact follow_branch_idem a s
        · simp only [if_neg h1, if_neg h2, if_neg h3, if_neg h4]

theorem processF_idem (d p : String → Option String) (a : Attestation) (s : DbState) :
    processF d p a (processF d p a s) = processF d p a s := by
  have hup : userPhase a (processF d p a s) = processF d p a s := by
    apply userPhase_noop
    intro hs
    have h := userPhase_hasUser a s hs
    exact ⟨hasUser_dispatchBranch d p a _ _ h.1, hasUser_dispatchBranch d p a _ _ h.2⟩
  show dispatchBranch d p a (userPhase a (processF d p a s)) = processF d p a s
  rw [hup]
  show dispatchBranch d p a (dispatchBranch d p a (userPhase a s))
    = dispatchBranch d p a (userPhase a s)
  exact dispatchBranch_idem d p a (userPhase a s)

/-- Claim C1: projection is idempotent — for every resolved attestation `a`
and every read-model state `s`, if `processCreatedAttestation` applied to
`a` produced state `s₁`, applying it to `a` again from `s₁` succeeds (no
error escapes to the caller) and returns `s₁` unchanged: no duplicate
User/Post/Like/Follow rows are created. -/
theorem claim1_processCreatedAttestation_idempotent
    (d p : String → Option String) (a : Attestation) (s s₁ : DbState)
    (h : processCreatedAttestation d p a s = .ok s₁) :
    processCreatedAttestation d p a s₁ = .ok s₁ := by
  have he := processCreatedAttestation_eq d p a s
  rw [h] at he
  have hs : s₁ = processF d p a s := by
    injection he
  rw [processCreatedAttestation_eq, hs, processF_idem]

/-- Witness for claim C1 at a concrete input. -/
theorem claim1_witness :
    processCreatedAttestation decode0 decodeName0 att0 db0 = .ok db1 ∧
    processCreatedAttestation decode0 decodeName0 att0 db1 = .ok db1 := by
  have h : processCreatedAttestation decode0 decodeName0 att0 db0 = .ok db1 := by rfl
  exact ⟨h, claim1_processCreatedAttestation_idempotent decode0 decodeName0 att0 db0 db1 h⟩

theorem retryGetAttestation_uid_ne_zero (chainAt : Nat → ChainAttestation) :
    ∀ (fuel k : Nat) (r : ChainAttestation),
      retryGetAttestation chainAt fuel k = some r → r.uid ≠ HashZero := by
  intro fuel
  induction fuel with
  | zero =>
    intro k r h
    exact absurd h (by simp [retryGetAttestation])
  | succ n ih =>
    intro k r h
    unfold retryGetAttestation at h
    split at h
    · exact ih _ _ h
    · rename_i hne
      cases h
      exact hne

theorem retryGetAttestation_zero_none :
    ∀ fuel k, retryGetAttestation zeroChainAt fuel k = none := by
  intro fuel
  induction fuel with
  | zero => intro k; rfl
  | succ n ih =>
    intro k
    unfold retryGetAttestation
    rw [if_pos (show (zeroChainAt k).uid = HashZero from rfl)]
    exact ih (k + 1)

/-- Claim C5 (code bug): the resolution retry loop is not bounded.  Against an
upstream that never returns a non-zero attestation id, no finite number of
`getAttestation` attempts makes `getFormattedAttestationFromLog` return, and
the source has no `ResolutionTimeout` failure path at all — the claimed
bounded-attempt failure does not exist. -/
theorem claim5_retry_unbounded :
    ¬ ∃ fuel : Nat,
      (getFormattedAttestationFromLog zeroChainAt 0 log1 fuel).isSome = true := by
  rintro ⟨fuel, h⟩
  unfold getFormattedAttestationFromLog at h
  rw [retryGetAttestation_zero_none] at h
  simp at h

/-- Claim C6: every attestation record returned by
`getFormattedAttestationFromLog` has a non-zero id — whenever the retry loop
terminates, the resolved record's `id` differs from the zero-hash sentinel. -/
theorem claim6_resolved_id_nonzero (chainAt : Nat → ChainAttestation) (now : Nat)
    (log : Log) (fuel : Nat) (att : Attestation)
    (h : getFormattedAttestationFromLog chainAt now log fuel = some att) :
    att.id ≠ HashZero := by
  unfold getFormattedAttestationFromLog at h
  rcases hr : retryGetAttestation chainAt fuel 0 with _ | r
  · rw [hr] at h
    cases h
  · rw [hr] at h
    cases h
    exact retryGetAttestation_uid_ne_zero chainAt fuel 0 r hr

/-- Witness for claim C6 at a concrete input. -/
theorem claim6_witness :
    getFormattedAttestationFromLog (fun _ => chainAtt1) 9 log1 1 = some att1 ∧
    att1.id ≠ HashZero := by
  have h : getFormattedAttestationFromLog (fun _ => chainAtt1) 9 log1 1 = some att1 := by
    rfl
  exact ⟨h, claim6_resolved_id_nonzero (fun _ => chainAtt1) 9 log1 1 att1 h⟩

theorem map_if_id {α : Type} (l : List α) (f : α → α) (c : α → Bool)
    (h : ∀ x ∈ l, c x = false) :
    l.map (fun x => if c x then f x else x) = l := by
  have h2 : l.map (fun x => if c x then f x else x) = l.map id :=
    List.map_congr_left (fun x hx => by simp [h x hx])
  rw [h2, List.map_id]

theorem not_hasPost_beq (s : DbState) (i : String) (h : ¬ hasPost s i) :
    ∀ q ∈ s.posts, (q.id == i) = false := by
  intro q hq
  rw [beq_eq_false_iff_ne]
  intro he
  exact h ⟨q, hq, he⟩

theorem not_hasLike_beq (s : DbState) (i : String) (h : ¬ hasLike s i) :
    ∀ q ∈ s.likes, (q.id == i) = false := by
  intro q hq
  rw [beq_eq_false_iff_ne]
  intro he
  exact h ⟨q, hq, he⟩

theorem not_hasFollow_beq (s : DbState) (i : String) (h : ¬ hasFollow s i) :
    ∀ q ∈ s.follows, (q.id == i) = false := by
  intro q hq
  rw [beq_eq_false_iff_ne]
  intro he
  exact h ⟨q, hq, he⟩

/-- Claim C3: for a revocation log whose attestation id matches no existing
Post/Like/Follow row, `revokeAttestationsFromLogs` changes nothing (and, being
built from `updateMany`, raises no error — the function is total in the
model); when a row does match, the `revokedAt` update lands in the one table
selected by the attestation's schema id, leaving the other tables unchanged. -/
theorem claim3_revocation_noop_and_routing (chain : String → ChainAttestation)
    (log : Log) (s : DbState) :
    (¬ hasPost s (chain log.data).uid ∧ ¬ hasLike s (chain log.data).uid ∧
        ¬ hasFollow s (chain log.data).uid →
      revokeAttestationsFromLogs chain [log] s = s) ∧
    ((chain log.data).schema = makePostUID →
      (revokeAttestationsFromLogs chain [log] s).likes = s.likes ∧
      (revokeAttestationsFromLogs chain [log] s).follows = s.follows ∧
      ∀ q ∈ s.posts, q.id = (chain log.data).uid →
        { q with revokedAt := (chain log.data).revocationTime } ∈
          (revokeAttestationsFromLogs chain [log] s).posts) ∧
    ((chain log.data).schema = likeUID →
      (revokeAttestationsFromLogs chain [log] s).posts = s.posts ∧
      (revokeAttestationsFromLogs chain [log] s).follows = s.follows ∧
      ∀ q ∈ s.likes, q.id = (chain log.data).uid →
        { q with revokedAt := (chain log.data).revocationTime } ∈
          (revokeAttestationsFromLogs chain [log] s).likes) ∧
    ((chain log.data).schema = followUID →
      (revokeAttestationsFromLogs chain [log] s).posts = s.posts ∧
      (revokeAttestationsFromLogs chain [log] s).likes = s.likes ∧
      ∀ q ∈ s.follows, q.id = (chain log.data).uid →
        { q with revokedAt := (chain log.data).revocationTime } ∈
          (revokeAttestationsFromLogs chain [log] s).follows) := by
  have hone : revokeAttestationsFromLogs chain [log] s = revokeOne chain log s := rfl
  refine ⟨?_, ?_, ?_, ?_⟩
  · rintro ⟨hp, hl, hf⟩
    rw [hone]
    unfold revokeOne
    split
    · unfold postUpdateManyRevokedAt
      rw [map_if_id s.posts _ _ (not_hasPost_beq s _ hp)]
    · split
      · unfold likeUpdateManyRevokedAt
        rw [map_if_id s.likes _ _ (not_hasLike_beq s _ hl)]
      · split
        · unfold followUpdateManyRevokedAt
          rw [map_if_id s.follows _ _ (not_hasFollow_beq s _ hf)]
        · rfl
  · intro hsch
    rw [hone]
    unfold revokeOne
    rw [if_pos hsch]
    refine ⟨rfl, rfl, ?_⟩
    intro q hq hid
    unfold postUpdateManyRevokedAt
    show _ ∈ s.posts.map
      (fun x => if x.id == (chain log.data).uid then
        { x with revokedAt := (chain log.data).revocationTime } else x)
    have hm := List.mem_map_of_mem
      (fun x : Post => if x.id == (chain log.data).uid then
        { x with revokedAt := (chain log.data).revocationTime } else x) hq
    dsimp only at hm
    rw [if_pos (by rw [beq_iff_eq]; exact hid)] at hm
    exact hm
  · intro hsch
    rw [hone]
    unfold revokeOne
    rw [if_neg (by rw [hsch]; decide), if_pos hsch]
    refine ⟨rfl, rfl, ?_⟩
    intro q hq hid
    unfold likeUpdateManyRevokedAt
    show _ ∈ s.likes.map
      (fun x => if x.id == (chain log.data).uid then
        { x with revokedAt := (chain log.data).revocationTime } else x)
    have hm := List.mem_map_of_mem
      (fun x : Like => if x.id == (chain log.data).uid then
        { x with revokedAt := (chain log.data).revocationTime } else x) hq
    dsimp only at hm
    rw [if_pos (by rw [beq_iff_eq]; exact hid)] at hm
    exact hm
  · intro hsch
    rw [hone]
    unfold revokeOne
    rw [if_neg (by rw [hsch]; decide), if_neg (by rw [hsch]; decide), if_pos hsch]
    refine ⟨rfl, rfl, ?_⟩
    intro q hq hid
    unfold followUpdateManyRevokedAt
    show _ ∈ s.follows.map
      (fun x => if x.id == (chain log.data).uid then
        { x with revokedAt := (chain log.data).revocationTime } else x)
    have hm := List.mem_map_of_mem
      (fun x : Follow => if x.id == (chain log.data).uid then
        { x with revokedAt := (chain log.data).revocationTime } else x) hq
    dsimp only at hm
    rw [if_pos (by rw [beq_iff_eq]; exact hid)] at hm
    exact hm

/-- Witness for claim C3: revoking against an empty read model is the
identity, and revoking a matching like row lands in the Like table. -/
theorem claim3_witness :
    revokeAttestationsFromLogs chain3 [log3] db0 = db0 ∧
    ({ id := "0xlike1", postId := "0xp", userId := "0xa", createdAt := 1,
       revokedAt := 44 } : Like) ∈ (revokeAttestationsFromLogs chain3 [log3] s3).likes := by
  constructor
  · exact (claim3_revocation_noop_and_routing chain3 log3 db0).1
      ⟨by decide, by decide, by decide⟩
  · exact ((claim3_revocation_noop_and_routing chain3 log3 s3).2.2.1 rfl).2.2
      { id := "0xlike1", postId := "0xp", userId := "0xa", createdAt := 1, revokedAt := 0 }
      (by decide) rfl

/-- Counterexample to claim C4 as stated: on a fresh database with no
checkpoint row, a poll cycle over an empty batch does create a checkpoint
row, with value 0 (`shouldCreate` is true because `getStartData` found no
row, and the create branch does not test `lastBlock`). -/
theorem claim4_counterexample :
    getAndUpdateLatestAttestations 100 resolve0 decode0 decodeName0 [] db0 =
      .ok { users := [], posts := [], likes := [], follows := [],
            serviceStats := [{ name := "latestAttestationBlockNum", value := "0" }] } := by
  rfl

/-- Claim C4 (amended): a poll cycle over an empty batch leaves an existing
checkpoint row untouched (value unchanged, never regressed) on both streams;
but when no checkpoint row exists, a row with value "0" is created
(`getStartData` later treats value 0 the same as an absent row). -/
theorem claim4_empty_batch_checkpoint (contractStartBlock : Nat)
    (resolve : Log → Attestation) (d p : String → Option String)
    (chain : String → ChainAttestation) (s : DbState) :
    ((serviceStatFind "latestAttestationBlockNum" s).isSome = true →
      getAndUpdateLatestAttestations contractStartBlock resolve d p [] s = .ok s) ∧
    (serviceStatFind "latestAttestationBlockNum" s = none →
      getAndUpdateLatestAttestations contractStartBlock resolve d p [] s =
        .ok { s with serviceStats := s.serviceStats ++
          [{ name := "latestAttestationBlockNum", value := "0" }] }) ∧
    ((serviceStatFind "latestAttestationRevocationBlockNum" s).isSome = true →
      getAndUpdateLatestAttestationRevocations contractStartBlock chain [] s = .ok s) ∧
    (serviceStatFind "latestAttestationRevocationBlockNum" s = none →
      getAndUpdateLatestAttestationRevocations contractStartBlock chain [] s =
        .ok { s with serviceStats := s.serviceStats ++
          [{ name := "latestAttestationRevocationBlockNum", value := "0" }] }) := by
  refine ⟨?_, ?_, ?_, ?_⟩
  · intro h
    show updateServiceStatToLastBlock (serviceStatFind "latestAttestationBlockNum" s).isNone
      "latestAttestationBlockNum" 0 s = .ok s
    rcases hstat : serviceStatFind "latestAttestationBlockNum" s with _ | st
    · rw [hstat] at h
      simp at h
    · rfl
  · intro h
    show updateServiceStatToLastBlock (serviceStatFind "latestAttestationBlockNum" s).isNone
      "latestAttestationBlockNum" 0 s = .ok { s with serviceStats := s.serviceStats ++
        [{ name := "latestAttestationBlockNum", value := "0" }] }
    rw [h]
    have hany : s.serviceStats.any (fun r => r.name == "latestAttestationBlockNum") = false := by
      rw [List.any_eq_false]
      intro r hr
      exact List.find?_eq_none.mp h r hr
    simp only [updateServiceStatToLastBlock, serviceStatCreate, hany, Option.isNone_none,
      if_true, Bool.false_eq_true, if_false]
    rfl
  · intro h
    show updateServiceStatToLastBlock
      (serviceStatFind "latestAttestationRevocationBlockNum" s).isNone
      "latestAttestationRevocationBlockNum" 0 s = .ok s
    rcases hstat : serviceStatFind "latestAttestationRevocationBlockNum" s with _ | st
    · rw [hstat] at h
      simp at h
    · rfl
  · intro h
    show updateServiceStatToLastBlock
      (serviceStatFind "latestAttestationRevocationBlockNum" s).isNone
      "latestAttestationRevocationBlockNum" 0 s = .ok { s with serviceStats :=
        s.serviceStats ++ [{ name := "latestAttestationRevocationBlockNum", value := "0" }] }
    rw [h]
    have hany : s.serviceStats.any
        (fun r => r.name == "latestAttestationRevocationBlockNum") = false := by
      rw [List.any_eq_false]
      intro r hr
      exact List.find?_eq_none.mp h r hr
    simp only [updateServiceStatToLastBlock, serviceStatCreate, hany, Option.isNone_none,
      if_true, Bool.false_eq_true, if_false]
    rfl

/-- Witness for the amended claim C4 at concrete inputs. -/
theorem claim4_witness :
    getAndUpdateLatestAttestations 100 resolve0 decode0 decodeName0 [] s4 = .ok s4 ∧
    getAndUpdateLatestAttestations 100 resolve0 decode0 decodeName0 [] db0 =
      .ok { db0 with serviceStats := [{ name := "latestAttestationBlockNum", value := "0" }] } := by
  constructor
  · exact (claim4_empty_batch_checkpoint 100 resolve0 decode0 decodeName0 chain3 s4).1
      (by decide)
  · exact (claim4_empty_batch_checkpoint 100 resolve0 decode0 decodeName0 chain3 db0).2.1
      (by decide)

/-- Counterexample to claim C2 as stated: the live-tail handler receives an
event at block 50 while the stored checkpoint is 100, and overwrites the
checkpoint down to 50 — there is no newer-than guard. -/
theorem claim2_counterexample :
    updateDbFromRelevantLog easAddr0 resolve2 chain3 decode0 decodeName0 log2 s2 =
      .ok { users := [], posts := [], likes := [], follows := [],
            serviceStats := [{ name := "latestAttestationBlockNum", value := "50" }] } ∧
    jsNumber "50" < jsNumber "100" := by
  exact ⟨rfl, by decide⟩

theorem find?_name_map_value (n v : String) (l : List ServiceStat) :
    ((l.map (fun x => if x.name == n then { x with value := v } else x)).find?
        (fun x => x.name == n))
      = (l.find? (fun x => x.name == n)).map (fun st => { st with value := v }) := by
  induction l with
  | nil => rfl
  | cons r rest ih =>
    cases hc : r.name == n with
    | true =>
      have h1 : ((r :: rest).find? fun x => x.name == n) = some r :=
        List.find?_cons_of_pos _ hc
      have h2 : (((r :: rest).map (fun x => if x.name == n then { x with value := v } else x)).find?
          fun x => x.name == n) = some { r with value := v } := by
        rw [List.map_cons]
        rw [if_pos hc]
        exact List.find?_cons_of_pos _ hc
      rw [h1, h2]
      rfl
    | false =>
      have h1 : ((r :: rest).find? fun x => x.name == n) = rest.find? fun x => x.name == n :=
        List.find?_cons_of_neg _ (by simp [hc])
      have h2 : (((r :: rest).map (fun x => if x.name == n then { x with value := v } else x)).find?
          fun x => x.name == n)
          = ((rest.map (fun x => if x.name == n then { x with value := v } else x)).find?
            fun x => x.name == n) := by
        rw [List.map_cons]
        rw [if_neg (by simp [hc])]
        exact List.find?_cons_of_neg _ (by simp [hc])
      rw [h1, h2, ih]

/-- Claim C2 (amended): for every delivered event, the live-tail handler
advances the corresponding checkpoint — `latestAttestationBlockNum` for a
creation event, `latestAttestationRevocationBlockNum` for a revocation
event — to that event's block number unconditionally: the stored row's value
is overwritten with the event's block whatever its previous value, so a
checkpoint already advanced further by a concurrent poll is regressed rather
than protected by a newer-than guard. -/
theorem claim2_live_tail_overwrites (easAddress : String) (resolve : Log → Attestation)
    (chain : String → ChainAttestation) (d p : String → Option String) (log : Log)
    (s s' : DbState)
    (haddr : log.address = easAddress)
    (hblock : log.blockNumber ≠ 0) :
    ((log.topics.get? 0 = some (ethersId attestedEventSignature) ∧
        topic3Matches log [makePostUID, likeUID, usernameUID, followUID] = true) →
      parseAttestationLogs resolve d p [log] s = .ok s' →
      (serviceStatFind "latestAttestationBlockNum" s').isSome = true →
      ∃ s'', updateDbFromRelevantLog easAddress resolve chain d p log s = .ok s'' ∧
        serviceStatFind "latestAttestationBlockNum" s'' =
          (serviceStatFind "latestAttestationBlockNum" s').map
            (fun st => { st with value := toString log.blockNumber })) ∧
    ((log.topics.get? 0 = some (ethersId revokedEventSignature) ∧
        topic3Matches log [makePostUID, likeUID, followUID] = true) →
      (serviceStatFind "latestAttestationRevocationBlockNum"
          (revokeAttestationsFromLogs chain [log] s)).isSome = true →
      ∃ s'', updateDbFromRelevantLog easAddress resolve chain d p log s = .ok s'' ∧
        serviceStatFind "latestAttestationRevocationBlockNum" s'' =
          (serviceStatFind "latestAttestationRevocationBlockNum"
              (revokeAttestationsFromLogs chain [log] s)).map
            (fun st => { st with value := toString log.blockNumber })) := by
  constructor
  · rintro ⟨htop0, htop3⟩ hparse hstat
    refine ⟨{ s' with
        serviceStats := s'.serviceStats.map (fun x =>
          if x.name == "latestAttestationBlockNum" then
            { x with value := toString log.blockNumber }
          else x) }, ?_, ?_⟩
    · unfold updateDbFromRelevantLog
      rw [if_pos haddr, if_pos ⟨htop0, htop3⟩, hparse]
      show updateServiceStatToLastBlock false "latestAttestationBlockNum" log.blockNumber s'
        = .ok _
      unfold updateServiceStatToLastBlock
      rw [if_neg (by simp), if_pos hblock]
      unfold serviceStatUpdate
      rw [if_pos (show (List.find? (fun r => r.name == "latestAttestationBlockNum")
        s'.serviceStats).isSome = true from hstat)]
    · exact find?_name_map_value "latestAttestationBlockNum" (toString log.blockNumber)
        s'.serviceStats
  · rintro ⟨htop0, htop3⟩ hstat
    have hne : ¬(log.topics.get? 0 = some (ethersId attestedEventSignature) ∧
        topic3Matches log [makePostUID, likeUID, usernameUID, followUID] = true) := by
      rintro ⟨h0, h3⟩
      rw [htop0] at h0
      exact absurd (Option.some.inj h0) (by decide)
    refine ⟨{ (revokeAttestationsFromLogs chain [log] s) with
        serviceStats := (revokeAttestationsFromLogs chain [log] s).serviceStats.map (fun x =>
          if x.name == "latestAttestationRevocationBlockNum" then
            { x with value := toString log.blockNumber }
          else x) }, ?_, ?_⟩
    · unfold updateDbFromRelevantLog
      rw [if_pos haddr, if_neg hne, if_pos ⟨htop0, htop3⟩]
      show updateServiceStatToLastBlock false "latestAttestationRevocationBlockNum"
        log.blockNumber (revokeAttestationsFromLogs chain [log] s) = .ok _
      unfold updateServiceStatToLastBlock
      rw [if_neg (by simp), if_pos hblock]
      unfold serviceStatUpdate
      rw [if_pos (show (List.find? (fun r => r.name == "latestAttestationRevocationBlockNum")
        (revokeAttestationsFromLogs chain [log] s).serviceStats).isSome = true from hstat)]
    · exact find?_name_map_value "latestAttestationRevocationBlockNum"
        (toString log.blockNumber) (revokeAttestationsFromLogs chain [log] s).serviceStats

/-- Witness for the amended claim C2: a creation event at block 50 overwrites
a creation-stream checkpoint stored at 100, and a revocation event at block
60 overwrites a revocation-stream checkpoint stored at 200. -/
theorem claim2_witness :
    (∃ s'', updateDbFromRelevantLog easAddr0 resolve2 chain3 decode0 decodeName0 log2 s2
        = .ok s'' ∧
      serviceStatFind "latestAttestationBlockNum" s'' =
        (serviceStatFind "latestAttestationBlockNum" s2).map
          (fun st => { st with value := toString log2.blockNumber })) ∧
    (∃ s'', updateDbFromRelevantLog easAddr0 resolve2 chain3 decode0 decodeName0 logR2 sR2
        = .ok s'' ∧
      serviceStatFind "latestAttestationRevocationBlockNum" s'' =
        (serviceStatFind "latestAttestationRevocationBlockNum"
            (revokeAttestationsFromLogs chain3 [logR2] sR2)).map
          (fun st => { st with value := toString logR2.blockNumber })) := by
  constructor
  · exact (claim2_live_tail_overwrites easAddr0 resolve2 chain3 decode0 decodeName0 log2 s2 s2
      rfl (by decide)).1 ⟨rfl, rfl⟩ rfl (by decide)
  · exact (claim2_live_tail_overwrites easAddr0 resolve2 chain3 decode0 decodeName0 logR2 sR2
      sR2 rfl (by decide)).2 ⟨rfl, rfl⟩ (by decide)

theorem ensureUserF_tables (i : String) (t : Nat) (sch : String) (s : DbState) :
    (ensureUserF i t sch s).posts = s.posts ∧ (ensureUserF i t sch s).likes = s.likes ∧
    (ensureUserF i t sch s).follows = s.follows ∧
    (ensureUserF i t sch s).serviceStats = s.serviceStats := by
  unfold ensureUserF
  split <;> exact ⟨rfl, rfl, rfl, rfl⟩

theorem userPhase_posts (a : Attestation) (s : DbState) :
    (userPhase a s).posts = s.posts := by
  unfold userPhase
  rw [(ensureUserF_tables a.recipient a.time a.schemaId _).1,
    (ensureUserF_tables a.attester a.time a.schemaId s).1]

theorem userPhase_likes (a : Attestation) (s : DbState) :
    (userPhase a s).likes = s.likes := by
  unfold userPhase
  rw [(ensureUserF_tables a.recipient a.time a.schemaId _).2.1,
    (ensureUserF_tables a.attester a.time a.schemaId s).2.1]

theorem likes_tryCatch_usernameBody (p : String → Option String) (a : Attestation)
    (s : DbState) : (tryCatch (usernameBody p a s) s).likes = s.likes := by
  unfold usernameBody userUpdateName
  split
  · rfl
  · split <;> rfl

theorem posts_dispatchBranch_extend (d p : String → Option String) (a : Attestation)
    (s : DbState) :
    (dispatchBranch d p a s).posts = s.posts ∨
    ∃ q, (dispatchBranch d p a s).posts = s.posts ++ [q] := by
  unfold dispatchBranch
  split
  · left
    unfold likeBody likeCreate
    split
    · split <;> rfl
    · rfl
  · split
    · unfold processPostAttestation postBody postCreate
      split
      · left
        rfl
      · split
        · left
          rfl
        · right
          exact ⟨_, rfl⟩
    · split
      · left
        exact posts_tryCatch_usernameBody p a s
      · split
        · left
          unfold followBody followCreate
          split <;> rfl
        · left
          rfl

theorem likes_dispatchBranch_extend (d p : String → Option String) (a : Attestation)
    (s : DbState) :
    (dispatchBranch d p a s).likes = s.likes ∨
    ∃ q, (dispatchBranch d p a s).likes = s.likes ++ [q] := by
  unfold dispatchBranch
  split
  · unfold likeBody likeCreate
    split
    · split
      · left
        rfl
      · right
        exact ⟨_, rfl⟩
    · left
      rfl
  · split
    · unfold processPostAttestation postBody postCreate
      split
      · left
        rfl
      · split <;> left <;> rfl
    · split
      · left
        exact likes_tryCatch_usernameBody p a s
      · split
        · left
          unfold followBody followCreate
          split <;> rfl
        · left
          rfl

theorem hasPost_mono_of_extend {s s' : DbState} (j : String)
    (h : s'.posts = s.posts ∨ ∃ q, s'.posts = s.posts ++ [q]) :
    hasPost s j → hasPost s' j := by
  rintro ⟨q, hq, hid⟩
  rcases h with h | ⟨r, h⟩
  · exact ⟨q, by rw [h]; exact hq, hid⟩
  · exact ⟨q, by rw [h]; exact List.mem_append_left _ hq, hid⟩

theorem hasLike_mono_of_extend {s s' : DbState} (j : String)
    (h : s'.likes = s.likes ∨ ∃ q, s'.likes = s.likes ++ [q]) :
    hasLike s j → hasLike s' j := by
  rintro ⟨q, hq, hid⟩
  rcases h with h | ⟨r, h⟩
  · exact ⟨q, by rw [h]; exact hq, hid⟩
  · exact ⟨q, by rw [h]; exact List.mem_append_left _ hq, hid⟩

theorem hasPost_processF_mono (d p : String → Option String) (a : Attestation)
    (s : DbState) (j : String) (h : hasPost s j) : hasPost (processF d p a s) j := by
  have h1 : hasPost (userPhase a s) j := by
    obtain ⟨q, hq, hid⟩ := h
    exact ⟨q, by rw [userPhase_posts]; exact hq, hid⟩
  exact hasPost_mono_of_extend j (posts_dispatchBranch_extend d p a (userPhase a s)) h1

theorem hasLike_processF_mono (d p : String → Option String) (a : Attestation)
    (s : DbState) (j : String) (h : hasLike s j) : hasLike (processF d p a s) j := by
  have h1 : hasLike (userPhase a s) j := by
    obtain ⟨q, hq, hid⟩ := h
    exact ⟨q, by rw [userPhase_likes]; exact hq, hid⟩
  exact hasLike_mono_of_extend j (likes_dispatchBranch_extend d p a (userPhase a s)) h1

theorem hasPost_applyF_mono (d p : String → Option String) (atts : List Attestation)
    (s : DbState) (j : String) (h : hasPost s j) :
    hasPost (atts.foldl (fun s a => processF d p a s) s) j := by
  induction atts generalizing s with
  | nil => exact h
  | cons a rest ih => exact ih _ (hasPost_processF_mono d p a s j h)

theorem hasLike_applyF_mono (d p : String → Option String) (atts : List Attestation)
    (s : DbState) (j : String) (h : hasLike s j) :
    hasLike (atts.foldl (fun s a => processF d p a s) s) j := by
  induction atts generalizing s with
  | nil => exact h
  | cons a rest ih => exact ih _ (hasLike_processF_mono d p a s j h)

theorem applyAttestations_ok (d p : String → Option String) (atts : List Attestation)
    (s : DbState) :
    applyAttestations d p atts s = .ok (atts.foldl (fun s a => processF d p a s) s) := by
  induction atts generalizing s with
  | nil => rfl
  | cons a rest ih =>
    simp only [applyAttestations, processCreatedAttestation_eq]
    exact ih (processF d p a s)

theorem processF_creates_post (d p : String → Option String) (a : Attestation)
    (s : DbState) (c : String)
    (hsch : a.schemaId = makePostUID) (hdec : d a.data = some c) :
    hasPost (processF d p a s) a.id := by
  unfold processF dispatchBranch
  rw [if_neg (by rw [hsch]; decide), if_pos hsch]
  unfold processPostAttestation postBody
  rw [hdec]
  show hasPost (tryCatch (postCreate { id := a.id, userId := a.attester,
                                        recipientId := a.recipient, content := c,
                                        parentId := resolveParentId a (userPhase a s),
                                        createdAt := a.time, revokedAt := 0 }
    (userPhase a s)) (userPhase a s)) a.id
  unfold postCreate
  split
  · rename_i hany
    rw [List.any_eq_true] at hany
    obtain ⟨q, hq, hbeq⟩ := hany
    exact ⟨q, hq, by simpa using hbeq⟩
  · refine ⟨{ id := a.id, userId := a.attester, recipientId := a.recipient,
              content := c, parentId := resolveParentId a (userPhase a s),
              createdAt := a.time, revokedAt := 0 }, ?_, rfl⟩
    show _ ∈ (userPhase a s).posts ++ [_]
    exact List.mem_append_right _ (by simp)

theorem processF_creates_like (d p : String → Option String) (a : Attestation)
    (s : DbState) (hsch : a.schemaId = likeUID) (hpost : hasPost s a.refUID) :
    hasLike (processF d p a s) a.id := by
  unfold processF dispatchBranch
  rw [if_pos hsch]
  have hpost2 : hasPost (userPhase a s) a.refUID := by
    obtain ⟨q, hq, hid⟩ := hpost
    exact ⟨q, by rw [userPhase_posts]; exact hq, hid⟩
  unfold likeBody
  rcases hf : (userPhase a s).posts.find? (fun q => q.id == a.refUID) with _ | q
  · exfalso
    rw [List.find?_eq_none] at hf
    obtain ⟨q, hq, hid⟩ := hpost2
    exact hf q hq (by simp [hid])
  · rw [hf]
    show hasLike (tryCatch (likeCreate { id := a.id, postId := a.refUID,
                                          userId := a.attester, createdAt := a.time,
                                          revokedAt := 0 }
      (userPhase a s)) (userPhase a s)) a.id
    unfold likeCreate
    split
    · rename_i hany
      rw [List.any_eq_true] at hany
      obtain ⟨l, hl, hbeq⟩ := hany
      exact ⟨l, hl, by simpa using hbeq⟩
    · refine ⟨{ id := a.id, postId := a.refUID, userId := a.attester,
                createdAt := a.time, revokedAt := 0 }, ?_, rfl⟩
      show _ ∈ (userPhase a s).likes ++ [_]
      exact List.mem_append_right _ (by simp)

/-- Claim C7: for a batch containing a post-creation attestation (whose
content decodes) listed at or before a like-creation attestation whose
`refUID` is that post's id, after `parseAttestationLogs` completes both the
Post row and the Like row are present — resolution preserves array order and
projection application is sequential in that order. -/
theorem claim7_intra_batch_ordering (resolve : Log → Attestation)
    (d p : String → Option String) (l1 l2 l3 : List Log) (lp ll : Log)
    (s s' : DbState) (c : String)
    (hp : (resolve lp).schemaId = makePostUID)
    (hdec : d (resolve lp).data = some c)
    (hl : (resolve ll).schemaId = likeUID)
    (href : (resolve ll).refUID = (resolve lp).id)
    (hrun : parseAttestationLogs resolve d p (l1 ++ lp :: l2 ++ ll :: l3) s = .ok s') :
    hasPost s' (resolve lp).id ∧ hasLike s' (resolve ll).id := by
  have he := applyAttestations_ok d p ((l1 ++ lp :: l2 ++ ll :: l3).map resolve) s
  rw [show applyAttestations d p ((l1 ++ lp :: l2 ++ ll :: l3).map resolve) s =
    parseAttestationLogs resolve d p (l1 ++ lp :: l2 ++ ll :: l3) s from rfl, hrun] at he
  have hs' : s' = ((l1 ++ lp :: l2 ++ ll :: l3).map resolve).foldl
      (fun s a => processF d p a s) s := by
    injection he
  subst hs'
  rw [List.map_append, List.map_cons, List.map_append, List.map_cons,
    List.foldl_append, List.foldl_cons, List.foldl_append, List.foldl_cons]
  refine ⟨?_, ?_⟩
  · exact hasPost_applyF_mono d p _ _ _ (hasPost_processF_mono d p _ _ _
      (hasPost_applyF_mono d p _ _ _ (processF_creates_post d p _ _ c hp hdec)))
  · refine hasLike_applyF_mono d p _ _ _ (processF_creates_like d p _ _ hl ?_)
    rw [href]
    exact hasPost_applyF_mono d p _ _ _ (processF_creates_post d p _ _ c hp hdec)

/-- Witness for claim C7 at a concrete two-element batch. -/
theorem claim7_witness :
    hasPost db7 (resolve7 logP).id ∧ hasLike db7 (resolve7 logL).id := by
  have hrun : parseAttestationLogs resolve7 decode0 decodeName0
      ([] ++ logP :: [] ++ logL :: []) db0 = .ok db7 := by rfl
  exact claim7_intra_batch_ordering resolve7 decode0 decodeName0 [] [] [] logP logL
    db0 db7 "hello" rfl rfl rfl rfl hrun

/-- `processCreatedAttestation` leaves the Like table unchanged when a like's
target post is absent. -/
theorem processF_likes_of_no_target (d p : String → Option String) (a : Attestation)
    (s : DbState) (hsch : a.schemaId = likeUID) (hpost : ¬ hasPost s a.refUID) :
    (processF d p a s).likes = s.likes := by
  unfold processF dispatchBranch
  rw [if_pos hsch]
  have hp2 : (userPhase a s).posts.find? (fun q => q.id == a.refUID) = none := by
    rw [List.find?_eq_none]
    intro q hq hbeq
    apply hpost
    refine ⟨q, ?_, by simpa using hbeq⟩
    rw [← userPhase_posts a s]
    exact hq
  unfold likeBody
  rw [hp2]
  show (userPhase a s).likes = s.likes
  exact userPhase_likes a s

/-- Claim C8: referential best-effort.  A like whose target post is absent is
applied without error and creates no Like row; a post whose `refUID` is
non-zero but matches no local post (and whose id is fresh and content
decodes) is still created, with `parentId = null`. -/
theorem claim8_referential_best_effort (d p : String → Option String) (a : Attestation)
    (s : DbState) :
    (a.schemaId = likeUID → ¬ hasPost s a.refUID →
      ∃ s', processCreatedAttestation d p a s = .ok s' ∧ s'.likes = s.likes) ∧
    (∀ c, a.schemaId = makePostUID → a.refUID ≠ HashZero → ¬ hasPost s a.refUID →
      d a.data = some c → ¬ hasPost s a.id →
      ∃ s', processCreatedAttestation d p a s = .ok s' ∧
        ({ id := a.id, userId := a.attester, recipientId := a.recipient, content := c,
           parentId := none, createdAt := a.time, revokedAt := 0 } : Post) ∈ s'.posts) := by
  constructor
  · intro hsch hpost
    exact ⟨processF d p a s, processCreatedAttestation_eq d p a s,
      processF_likes_of_no_target d p a s hsch hpost⟩
  · intro c hsch href hpost hdec hid
    refine ⟨processF d p a s, processCreatedAttestation_eq d p a s, ?_⟩
    unfold processF dispatchBranch
    rw [if_neg (by rw [hsch]; decide), if_pos hsch]
    unfold processPostAttestation postBody
    rw [hdec]
    have hpar : resolveParentId a (userPhase a s) = none := by
      unfold resolveParentId
      rw [if_pos href]
      have hf : (userPhase a s).posts.find? (fun p => p.id == a.refUID) = none := by
        rw [List.find?_eq_none]
        intro q hq hbeq
        apply hpost
        refine ⟨q, ?_, by simpa using hbeq⟩
        rw [← userPhase_posts a s]
        exact hq
      rw [hf]
    have hany : ((userPhase a s).posts.any fun x => x.id == a.id) = false := by
      rw [List.any_eq_false]
      intro x hx
      rw [beq_iff_eq]
      intro he
      apply hid
      refine ⟨x, ?_, he⟩
      rw [← userPhase_posts a s]
      exact hx
    show ({ id := a.id, userId := a.attester, recipientId := a.recipient, content := c,
            parentId := none, createdAt := a.time, revokedAt := 0 } : Post) ∈
      (tryCatch (postCreate { id := a.id, userId := a.attester,
                              recipientId := a.recipient, content := c,
                              parentId := resolveParentId a (userPhase a s),
                              createdAt := a.time, revokedAt := 0 }
        (userPhase a s)) (userPhase a s)).posts
    rw [hpar]
    unfold postCreate
    rw [if_neg (by simp [hany])]
    show _ ∈ (userPhase a s).posts ++ [_]
    exact List.mem_append_right _ (by simp)

/-- Witness for claim C8 at concrete inputs. -/
theorem claim8_witness :
    (∃ s', processCreatedAttestation decode0 decodeName0 att0 db0 = .ok s' ∧
      s'.likes = db0.likes) ∧
    (∃ s', processCreatedAttestation decode0 decodeName0 attP8 db0 = .ok s' ∧
      ({ id := attP8.id, userId := attP8.attester, recipientId := attP8.recipient,
         content := "x", parentId := none, createdAt := attP8.time,
         revokedAt := 0 } : Post) ∈ s'.posts) := by
  constructor
  · exact (claim8_referential_best_effort decode0 decodeName0 att0 db0).1 rfl (by decide)
  · exact (claim8_referential_best_effort decode0 decodeName0 attP8 db0).2 "x" rfl
      (by decide) (by decide) rfl (by decide)

/-- Claim C9 (implicit): a like attestation whose target post is absent still
creates the attester and recipient User rows (no Like row is inserted), since
user auto-creation runs for every known-schema attestation before the
schema-specific branch. -/
theorem claim9_dropped_like_creates_users (d p : String → Option String)
    (a : Attestation) (s : DbState)
    (hsch : a.schemaId = likeUID) (hpost : ¬ hasPost s a.refUID) :
    ∃ s', processCreatedAttestation d p a s = .ok s' ∧
      hasUser s' a.attester ∧ hasUser s' a.recipient ∧ s'.likes = s.likes := by
  refine ⟨processF d p a s, processCreatedAttestation_eq d p a s, ?_, ?_, ?_⟩
  · exact hasUser_dispatchBranch d p a _ _
      (userPhase_hasUser a s (by rw [hsch]; decide)).1
  · exact hasUser_dispatchBranch d p a _ _
      (userPhase_hasUser a s (by rw [hsch]; decide)).2
  · exact processF_likes_of_no_target d p a s hsch hpost

/-- Witness for claim C9 at a concrete input. -/
theorem claim9_witness :
    ∃ s', processCreatedAttestation decode0 decodeName0 att0 db0 = .ok s' ∧
      hasUser s' att0.attester ∧ hasUser s' att0.recipient ∧ s'.likes = db0.likes :=
  claim9_dropped_like_creates_users decode0 decodeName0 att0 db0 rfl (by decide)

/-- Claim C10: every string returned by `extractURLs` is the `https://`
prefix followed by a regex match and contains no `@` character; when the
input has no match (the regex engine returns null) the result is the empty
list. -/
theorem claim10_extractURLs (jsMatch : String → Option (List String)) (text : String) :
    (∀ u ∈ extractURLs jsMatch text,
      (∃ rest, u = "https://" ++ rest) ∧ includesAtSign u = false) ∧
    (jsMatch text = none → extractURLs jsMatch text = []) := by
  constructor
  · intro u hu
    unfold extractURLs at hu
    rcases hm : jsMatch text with _ | ms
    · rw [hm] at hu
      cases hu
    · rw [hm] at hu
      have hu2 : u ∈ (ms.map (fun url => "https://" ++ url)).filter
          (fun url => !includesAtSign url) := hu
      have hf := List.mem_filter.mp hu2
      have hmap := hf.1
      rw [List.mem_map] at hmap
      obtain ⟨m, hmem, hem⟩ := hmap
      refine ⟨⟨m, hem.symm⟩, ?_⟩
      have hb := hf.2
      rwa [Bool.not_eq_eq_eq_not, Bool.not_true] at hb
  · intro h
    unfold extractURLs
    rw [h]
    rfl

/-- Witness for claim C10 at concrete inputs. -/
theorem claim10_witness :
    ((∃ rest, "https://example.com" = "https://" ++ rest) ∧
      includesAtSign "https://example.com" = false) ∧
    extractURLs (fun _ => none) "no urls here" = [] := by
  constructor
  · exact (claim10_extractURLs
      (fun _ => some ["example.com", "user@host.com"]) "example.com user@host.com").1
        "https://example.com" (by decide)
  · exact (claim10_extractURLs (fun _ => none) "no urls here").2 rfl

end EasterIndexer
